/-
Verification of the podcast feed curation pipeline.

This file gives a shallow embedding, in Lean 4, of the pure core of the
repository's Python sources (feed_manager.py, expand_feeds.py,
expand_to_100.py, quick_100_expansion.py), and settles the frozen claims
about it.  External effects (HTTP reachability probes, feed fetching and
parsing, wall-clock time) are modelled as explicit inputs: a probe is an
`Except String Int` (an HTTP status or a raised exception), a fetch is an
`Except String ParsedFeed`, and the current time is an `Int` (seconds).
Python dictionaries read from CSV/JSON are modelled as structures whose
string fields use `""` for an absent-or-empty value, matching the
truthiness tests the sources perform on them.  Python `float` arithmetic
is modelled over `ℚ`; `round(x, 1)` is modelled by `round1` below
(round-half-to-even at one decimal place).
-/
import Mathlib

namespace Podcasts

/-! ### String helpers mirroring the Python string operations used -/

/-- `s.lower()` (ASCII case folding, as used on the ASCII URLs/keywords). -/
def pyLower (s : String) : String := String.mk (s.data.map Char.toLower)

/-- Drop the chars satisfying `p` from both ends, Python `str.strip(chars)`. -/
def stripBoth (p : Char → Bool) (l : List Char) : List Char :=
  ((l.dropWhile p).reverse.dropWhile p).reverse

/-- `s.strip('/')`. -/
def pyStripSlash (s : String) : String := String.mk (stripBoth (· == '/') s.data)

/-- `s.strip()` (whitespace). -/
def pyStripWS (s : String) : String := String.mk (stripBoth Char.isWhitespace s.data)

/-- Does `l` start with `n`? -/
def takesAt : List Char → List Char → Bool
  | _, [] => true
  | [], _ :: _ => false
  | a :: as, b :: bs => a == b && takesAt as bs

/-- Substring occurrence on char lists. -/
def subIn : List Char → List Char → Bool
  | [], n => n.isEmpty
  | l@(_ :: t), n => takesAt l n || subIn t n

/-- Python `needle in hay` on strings. -/
def strIn (needle hay : String) : Bool := subIn hay.data needle.data

/-- `url.startswith(('http://', 'https://'))`. -/
def startsHttp (s : String) : Bool :=
  takesAt s.data "http://".data || takesAt s.data "https://".data

/-- `re.sub(r'[^a-z0-9]', '', s)`: keep only lowercase letters and digits. -/
def titleKey (s : String) : String :=
  String.mk (s.data.filter fun c => (c.isLower || c.isDigit))

/-! ### Data model -/

/-- A persisted curated record (`feeds.json` entry): `{rss_url, title,
categories, language}`. -/
structure CuratedRecord where
  rss_url : String
  title : String
  categories : List String
  language : String
deriving DecidableEq, Repr

/-- One parsed feed entry, as produced by the external fetch/parse service.
`published` is the entry's `published_parsed` timestamp in epoch seconds,
`none` when absent. -/
structure FeedEntry where
  title : String
  description : String
  summary : String
  published : Option Int
  hasEnclosures : Bool
deriving DecidableEq, Repr

/-- The result of a successful fetch of a feed URL.  `tags` is `none` when
the parsed feed object has no `tags` attribute, otherwise the list of the
tags' `term` strings.  `hasImage` models `hasattr(feed.feed, 'image')` and
`imageHref` the image's `href` (empty when absent). -/
structure ParsedFeed where
  bozo : Bool
  title : String
  description : String
  author : String
  language : String
  hasImage : Bool
  imageHref : String
  logo : String
  tags : Option (List String)
  entries : List FeedEntry
deriving DecidableEq, Repr

/-- One raw candidate row of the Podcastindex CSV.  The integer fields model
the `int(...)` conversions the sources apply; `predicted_category` and
`category_confidence` are the fields `get_strategic_candidates` adds to a
row (`""`/`0` before that). -/
structure CsvRow where
  url : String
  title : String
  description : String
  dead : String
  duplicateof : String
  parse_errors : Int
  itunes_id : String
  newest_item_pubdate : Int
  predicted_category : String
  category_confidence : Int
deriving DecidableEq, Repr

/-- A validated feed record, before the final strip to `CuratedRecord`. -/
structure FeedData where
  rss_url : String
  title : String
  categories : List String
  language : String
  quality_score : ℚ
  total_episodes : Nat
  description : String
  predicted_category : String
deriving DecidableEq, Repr

/-- Seconds in a day, for the `timedelta(days=...)` cutoffs. -/
def daySecs : Int := 86400

/-! ### Python `round(x, 1)` over ℚ (round half to even) -/

/-- Round a rational to the nearest integer, halves to even
(Python 3 `round` semantics). -/
def rhe (x : ℚ) : Int :=
  if x - (⌊x⌋ : ℚ) < 1/2 then ⌊x⌋
  else if (1 : ℚ)/2 < x - (⌊x⌋ : ℚ) then ⌊x⌋ + 1
  else if ⌊x⌋ % 2 = 0 then ⌊x⌋ else ⌊x⌋ + 1

/-- Python `round(x, 1)`. -/
def round1 (x : ℚ) : ℚ := ((rhe (10 * x) : ℚ)) / 10

theorem rhe_eq_floor_or_succ (x : ℚ) : rhe x = ⌊x⌋ ∨ rhe x = ⌊x⌋ + 1 := by
  unfold rhe
  split
  · exact Or.inl rfl
  · split
    · exact Or.inr rfl
    · split
      · exact Or.inl rfl
      · exact Or.inr rfl

theorem rhe_nonneg {x : ℚ} (hx : 0 ≤ x) : 0 ≤ rhe x := by
  have h0 : (0 : Int) ≤ ⌊x⌋ := Int.floor_nonneg.mpr hx
  rcases rhe_eq_floor_or_succ x with h | h <;> omega

theorem rhe_le {x : ℚ} {n : Int} (hx : x ≤ (n : ℚ)) : rhe x ≤ n := by
  have hfl : ⌊x⌋ ≤ n := by
    have := Int.floor_le_floor hx
    simpa using this
  rcases rhe_eq_floor_or_succ x with h | h
  · omega
  · -- in the `+ 1` branches the fractional part is at least 1/2
    have hr : ¬ (x - (⌊x⌋ : ℚ) < 1/2) := by
      intro hc
      unfold rhe at h
      simp only [hc, if_pos] at h
      omega
    push_neg at hr
    have hlt : (⌊x⌋ : ℚ) < (n : ℚ) := by
      have h1 : (⌊x⌋ : ℚ) + 1/2 ≤ x := by linarith
      have h2 : (⌊x⌋ : ℚ) + 1/2 ≤ (n : ℚ) := le_trans h1 hx
      linarith
    have : ⌊x⌋ < n := by exact_mod_cast hlt
    omega

theorem rhe_intCast (n : Int) : rhe (n : ℚ) = n := by
  unfold rhe
  have hf : ⌊(n : ℚ)⌋ = n := Int.floor_intCast n
  simp only [hf]
  have : (n : ℚ) - (n : ℚ) = 0 := by ring
  rw [this]
  norm_num

theorem round1_nonneg {x : ℚ} (hx : 0 ≤ x) : 0 ≤ round1 x := by
  unfold round1
  have : (0 : Int) ≤ rhe (10 * x) := rhe_nonneg (by linarith)
  positivity

theorem round1_le {x : ℚ} {n : Int} (hx : x ≤ (n : ℚ)) : round1 x ≤ (n : ℚ) := by
  unfold round1
  have h10 : 10 * x ≤ ((10 * n : Int) : ℚ) := by push_cast; linarith
  have := rhe_le h10
  have hc : (rhe (10 * x) : ℚ) ≤ ((10 * n : Int) : ℚ) := by exact_mod_cast this
  push_cast at hc
  linarith

theorem round1_round1 (x : ℚ) : round1 (round1 x) = round1 x := by
  unfold round1
  have h : 10 * ((rhe (10 * x) : ℚ) / 10) = ((rhe (10 * x) : ℚ)) := by ring
  rw [h, rhe_intCast]

theorem round1_tenth (n : Int) : round1 ((n : ℚ) / 10) = (n : ℚ) / 10 := by
  unfold round1
  rw [show (10 : ℚ) * ((n : ℚ) / 10) = (n : ℚ) by ring, rhe_intCast]

theorem round1_zero : round1 0 = 0 := by
  have h := round1_tenth 0
  norm_num at h
  exact h

/-! ### Quality scorers

Each scorer mirrors one `calculate_quality_score` of the sources.  The
Python `datetime.now()` the sources read is the explicit `now` argument
(epoch seconds); `datetime.now() - timedelta(days=d)` is `now - d * daySecs`.
-/

/-- `if cond then p else 0`, the incremental `score += p` guarded by a check. -/
def b2q (b : Bool) (p : ℚ) : ℚ := if b then p else 0

/-- Count entries among the first `k` with a `published_parsed` newer than
`now - days`: the `recent_count` loops of the scorers and validators. -/
def recentCount (k : Nat) (days : Int) (entries : List FeedEntry) (now : Int) : Nat :=
  ((entries.take k).filter fun e =>
    match e.published with
    | some t => decide (now - days * daySecs < t)
    | none => false).length

/-- Feed-level metadata points of `feed_manager.calculate_quality_score`
(title, description, author, language, `hasattr(feed.feed, 'image') or logo`). -/
def feedMetaFM (f : ParsedFeed) : ℚ :=
  b2q (f.title != "") 5 + b2q (f.description != "") 5 + b2q (f.author != "") 5 +
    b2q (f.language != "") 5 + b2q (f.hasImage || f.logo != "") 5

/-- Feed-level metadata points of the expand_feeds / expand_to_100 scorers
(image counts only with a non-empty `href`). -/
def feedMetaEF (f : ParsedFeed) : ℚ :=
  b2q (f.title != "") 5 + b2q (f.description != "") 5 + b2q (f.author != "") 5 +
    b2q (f.language != "") 5 + b2q ((f.hasImage && f.imageHref != "") || f.logo != "") 5

/-- Per-entry metadata points, feed_manager variant (2/2/2, description only). -/
def entryMetaFM (e : FeedEntry) : ℚ :=
  b2q (e.title != "") 2 + b2q (e.description != "") 2 + b2q e.hasEnclosures 2

/-- Per-entry metadata points, expand_feeds variant (2/2/2, description or summary). -/
def entryMetaEF (e : FeedEntry) : ℚ :=
  b2q (e.title != "") 2 + b2q (e.description != "" || e.summary != "") 2 +
    b2q e.hasEnclosures 2

/-- Per-entry metadata points, expand_to_100 variant (1.5/1.5/1). -/
def entryMetaE100 (e : FeedEntry) : ℚ :=
  b2q (e.title != "") (3/2) + b2q (e.description != "" || e.summary != "") (3/2) +
    b2q e.hasEnclosures 1

/-- The raw (pre-rounding) score of `FeedManager.calculate_quality_score`:
volume `min(len/10, 20)`, recency over the first 20 entries with a 30-day
cutoff at weight 5 capped at 25, feed metadata (max 25), entry metadata over
the first 5 entries capped at 30. -/
def rawScoreFM (f : ParsedFeed) (now : Int) : ℚ :=
  min ((f.entries.length : ℚ) / 10) 20 +
    min ((recentCount 20 30 f.entries now : ℚ) * 5) 25 +
    feedMetaFM f +
    min (((f.entries.take 5).map entryMetaFM).sum) 30

/-- `FeedManager.calculate_quality_score(feed)`: the raw score rounded to one
decimal place.  Its callers check `bozo`/emptiness before calling. -/
def calculate_quality_score_fm (f : ParsedFeed) (now : Int) : ℚ :=
  round1 (rawScoreFM f now)

/-- The raw score of `QualityFeedExpander.calculate_quality_score`:
`min(len/5, 20)`, recency over the first 10 entries with a 60-day cutoff at
weight 5 capped at 25, feed metadata, entry metadata capped at 30, +10 for an
iTunes id on the candidate row, +5 for more than 50 episodes. -/
def rawScoreEF (f : ParsedFeed) (row : CsvRow) (now : Int) : ℚ :=
  min ((f.entries.length : ℚ) / 5) 20 +
    min ((recentCount 10 60 f.entries now : ℚ) * 5) 25 +
    feedMetaEF f +
    min (((f.entries.take 5).map entryMetaEF).sum) 30 +
    b2q (row.itunes_id != "") 10 +
    b2q (decide (50 < f.entries.length)) 5

/-- `QualityFeedExpander.calculate_quality_score(feed_data)`: the function
fetches the row's URL itself, so it takes the fetch outcome; a raised
exception or a `bozo` parse with no entries yields `0`. -/
def calculate_quality_score_ef (fetch : Except String ParsedFeed) (row : CsvRow)
    (now : Int) : ℚ :=
  match fetch with
  | .error _ => 0
  | .ok f => if f.bozo && f.entries.isEmpty then 0 else round1 (rawScoreEF f row now)

/-- The raw score of `PremiumScaler.calculate_quality_score`:
`min(len/3, 20)`, recency over the first 15 entries with a 90-day cutoff at
weight 3 capped at 25, feed metadata, entry metadata capped at 20, +8 for an
iTunes id, +5 for more than 25 episodes, +5 for more than 100 episodes, +5
when the keyword-confidence of the predicted category was at least 2. -/
def rawScoreE100 (f : ParsedFeed) (row : CsvRow) (now : Int) : ℚ :=
  min ((f.entries.length : ℚ) / 3) 20 +
    min ((recentCount 15 90 f.entries now : ℚ) * 3) 25 +
    feedMetaEF f +
    min (((f.entries.take 5).map entryMetaE100).sum) 20 +
    b2q (row.itunes_id != "") 8 +
    b2q (decide (25 < f.entries.length)) 5 +
    b2q (decide (100 < f.entries.length)) 5 +
    b2q (decide (2 ≤ row.category_confidence)) 5

/-- `PremiumScaler.calculate_quality_score(feed_data)`. -/
def calculate_quality_score_e100 (fetch : Except String ParsedFeed) (row : CsvRow)
    (now : Int) : ℚ :=
  match fetch with
  | .error _ => 0
  | .ok f => if f.bozo && f.entries.isEmpty then 0 else round1 (rawScoreE100 f row now)

/-! ### Category extraction -/

/-- The tag-derived categories of `FeedManager.extract_categories`: the
non-empty terms of the structured tags, when any. -/
def fmTagCats (f : ParsedFeed) : List String :=
  match f.tags with
  | some tags => tags.filter (· != "")
  | none => []

/-- The keyword fallback of `FeedManager.extract_categories` on the
lower-cased description `d` alone. -/
def fmKeywordFallback (d : String) : List String :=
  if strIn "tech" d || strIn "technology" d || strIn "programming" d then
    ["Technology"]
  else if strIn "news" d || strIn "politics" d || strIn "current" d then
    ["News"]
  else if strIn "business" d || strIn "entrepreneur" d || strIn "finance" d then
    ["Business"]
  else if strIn "science" d || strIn "research" d || strIn "education" d then
    ["Science"]
  else if strIn "comedy" d || strIn "humor" d || strIn "funny" d then
    ["Comedy"]
  else ["General"]

/-- The category list `FeedManager.extract_categories` builds before its
final truncation. -/
def fmRawCats (f : ParsedFeed) : List String :=
  if (fmTagCats f).isEmpty then fmKeywordFallback (pyLower f.description)
  else fmTagCats f

/-- `FeedManager.extract_categories`: note the cap is `[:3]`, three labels. -/
def extract_categories_fm (f : ParsedFeed) : List String := (fmRawCats f).take 3

/-- `QualityFeedExpander.extract_categories`: terms of the first three tags,
else a keyword fallback on lower-cased title+description, else `General`;
truncated to the first two.  (Its `candidate` parameter is unused.) -/
def extract_categories_ef (f : ParsedFeed) : List String :=
  let tagCats :=
    match f.tags with
    | some tags => (tags.take 3).filter (· != "")
    | none => []
  let cats :=
    if tagCats.isEmpty then
      let content := pyLower f.title ++ " " ++ pyLower f.description
      if strIn "tech" content || strIn "technology" content ||
          strIn "programming" content || strIn "software" content ||
          strIn "ai" content || strIn "computer" content then
        ["Technology"]
      else if strIn "news" content || strIn "politics" content ||
          strIn "current events" content || strIn "journalism" content then
        ["News"]
      else if strIn "business" content || strIn "entrepreneur" content ||
          strIn "finance" content || strIn "startup" content ||
          strIn "money" content then
        ["Business"]
      else if strIn "science" content || strIn "research" content ||
          strIn "education" content || strIn "learning" content then
        ["Science"]
      else if strIn "comedy" content || strIn "humor" content ||
          strIn "funny" content || strIn "laugh" content then
        ["Comedy"]
      else if strIn "health" content || strIn "fitness" content ||
          strIn "wellness" content || strIn "medical" content then
        ["Health"]
      else if strIn "history" content || strIn "culture" content ||
          strIn "society" content || strIn "documentary" content then
        ["Society & Culture"]
      else if strIn "sports" content || strIn "football" content ||
          strIn "basketball" content || strIn "baseball" content then
        ["Sports"]
      else ["General"]
    else tagCats
  cats.take 2

/-- The iTunes-to-internal category table of `PremiumScaler.map_itunes_category`. -/
def itunesMapping : List (String × String) :=
  [("Technology", "Technology"), ("Business", "Business"), ("News", "News"),
   ("Science", "Science"), ("Comedy", "Comedy"), ("Health & Fitness", "Health"),
   ("Sports", "Sports"), ("Education", "Education"), ("True Crime", "True Crime"),
   ("Music", "Music"), ("Arts", "Arts"), ("Government", "Politics"),
   ("Society & Culture", "Society"), ("History", "History"),
   ("Religion & Spirituality", "Religion"), ("TV & Film", "Entertainment"),
   ("Leisure", "Entertainment")]

/-- `PremiumScaler.map_itunes_category`: the value of the first table key that
is a case-insensitive substring of the tag term, else nothing. -/
def map_itunes_category (c : String) : Option String :=
  (itunesMapping.find? fun kv => strIn (pyLower kv.1) (pyLower c)).map (·.2)

/-- The keyword table of `PremiumScaler.analyze_content_category`. -/
def e100ContentKeywords : List (String × List String) :=
  [("Technology", ["tech", "programming", "software", "ai", "startup", "coding"]),
   ("Business", ["business", "entrepreneur", "marketing", "finance", "leadership"]),
   ("News", ["news", "politics", "current", "journalism", "daily"]),
   ("Science", ["science", "research", "physics", "biology", "space"]),
   ("Comedy", ["comedy", "humor", "funny", "laugh", "standup"]),
   ("Health", ["health", "fitness", "wellness", "medical", "nutrition"]),
   ("Sports", ["sports", "football", "basketball", "baseball", "soccer"]),
   ("Education", ["education", "learning", "teaching", "university"]),
   ("True Crime", ["crime", "murder", "investigation", "detective"]),
   ("Music", ["music", "artist", "album", "song", "musician"]),
   ("History", ["history", "historical", "ancient", "war"]),
   ("Finance", ["finance", "money", "investing", "stocks", "crypto"])]

/-- How many of the keywords occur in the content string. -/
def kwCount (content : String) (kws : List String) : Nat :=
  (kws.filter fun k => strIn k content).length

/-- First category of the table whose keyword count reaches 2, else `General`. -/
def firstCatWithTwo : List (String × List String) → String → String
  | [], _ => "General"
  | (c, kws) :: rest, content =>
    if 2 ≤ kwCount content kws then c else firstCatWithTwo rest content

/-- `PremiumScaler.analyze_content_category`. -/
def analyze_content_category (f : ParsedFeed) : String :=
  firstCatWithTwo e100ContentKeywords (pyLower (f.title ++ " " ++ f.description))

/-- The tag-derived categories of `extract_enhanced_categories`: the first
two tags' non-empty terms, each mapped through the iTunes table. -/
def e100TagCats (f : ParsedFeed) : List String :=
  match f.tags with
  | some tags => ((tags.take 2).filter (· != "")).filterMap map_itunes_category
  | none => []

/-- …after the predicted-category fallback. -/
def e100Cats1 (f : ParsedFeed) (row : CsvRow) : List String :=
  if (e100TagCats f).isEmpty && row.predicted_category != "" then
    [row.predicted_category]
  else e100TagCats f

/-- …after the content-analysis fallback. -/
def e100Cats2 (f : ParsedFeed) (row : CsvRow) : List String :=
  if (e100Cats1 f row).isEmpty then [analyze_content_category f] else e100Cats1 f row

/-- The category list `PremiumScaler.extract_enhanced_categories` builds
before its final truncation: mapped tag terms, else the candidate's
predicted category, else content analysis, else `General`. -/
def e100RawCats (f : ParsedFeed) (row : CsvRow) : List String :=
  if (e100Cats2 f row).isEmpty then ["General"] else e100Cats2 f row

/-- `PremiumScaler.extract_enhanced_categories`: capped at two labels. -/
def extract_enhanced_categories (f : ParsedFeed) (row : CsvRow) : List String :=
  (e100RawCats f row).take 2

/-! ### Validators

The network calls inside the `try` blocks are explicit inputs: `probe` is the
outcome of `requests.head` (`.ok status`, or `.error e` when it raised) and
`fetch` the outcome of `feedparser.parse` (`.error e` when it raised).  The
Python `except` around the whole body maps every raised exception to a
non-success return value, so the embedding is a total function.
-/

/-- `FeedManager.extract_image_url`. -/
def extract_image_url (f : ParsedFeed) : String :=
  if f.hasImage then f.imageHref else if f.logo != "" then f.logo else ""

/-- The dict `FeedManager.validate_rss_feed` returns: either
`{'error': msg}` or the metrics of a valid feed. -/
inductive FMRes where
  | err (msg : String)
  | ok (title description : String) (total recent : Nat) (score : ℚ)
      (language author image_url : String) (categories : List String)
deriving DecidableEq, Repr

/-- `FeedManager.validate_rss_feed(url)`: a raised parse exception, a bozo
feed without entries, fewer than 3 entries, or no entry within 180 days each
reject; otherwise the metrics dict is returned.  An absent feed title or
language falls back to `'Unknown'` / `'en'`. -/
def validate_rss_feed (fetch : Except String ParsedFeed) (now : Int) : Bool × FMRes :=
  match fetch with
  | .error e => (false, .err e)
  | .ok f =>
    if f.bozo && f.entries.isEmpty then (false, .err "Failed to parse feed")
    else if f.entries.length < 3 then (false, .err "Too few episodes")
    else if recentCount 10 180 f.entries now = 0 then (false, .err "No recent episodes")
    else
      (true, .ok (if f.title != "" then f.title else "Unknown") f.description
        f.entries.length (recentCount 10 180 f.entries now)
        (calculate_quality_score_fm f now)
        (if f.language != "" then f.language else "en") f.author
        (extract_image_url f) (extract_categories_fm f))

/-- `QualityFeedExpander.validate_feed(candidate)`: probe exception, non-200
status, a score below the threshold, or a fetch exception each reject with
the empty dict `{}` (modelled as `none`); otherwise the feed-data dict. -/
def validate_feed_ef (probe : Except String Int) (fetch : Except String ParsedFeed)
    (row : CsvRow) (now : Int) (minScore : ℚ) : Bool × Option FeedData :=
  match probe with
  | .error _ => (false, none)
  | .ok status =>
    if status != 200 then (false, none)
    else if calculate_quality_score_ef fetch row now < minScore then (false, none)
    else
      match fetch with
      | .error _ => (false, none)
      | .ok f =>
        (true, some
          { rss_url := row.url
            title := if f.title != "" then f.title else row.title
            categories := extract_categories_ef f
            language := if f.language != "" then f.language else "en"
            quality_score := calculate_quality_score_ef fetch row now
            total_episodes := f.entries.length
            description := String.mk (f.description.data.take 100)
            predicted_category := "" })

/-- `PremiumScaler.validate_feed(candidate)`: like the expand_feeds variant
but accepting statuses 200/301/302, scoring with the enhanced scorer, and
carrying the predicted category through. -/
def validate_feed_e100 (probe : Except String Int) (fetch : Except String ParsedFeed)
    (row : CsvRow) (now : Int) (minScore : ℚ) : Bool × Option FeedData :=
  match probe with
  | .error _ => (false, none)
  | .ok status =>
    if !(status == 200 || status == 301 || status == 302) then (false, none)
    else if calculate_quality_score_e100 fetch row now < minScore then (false, none)
    else
      match fetch with
      | .error _ => (false, none)
      | .ok f =>
        (true, some
          { rss_url := row.url
            title := if f.title != "" then f.title else row.title
            categories := extract_enhanced_categories f row
            language := if f.language != "" then f.language else "en"
            quality_score := calculate_quality_score_e100 fetch row now
            total_episodes := f.entries.length
            description := ""
            predicted_category :=
              if row.predicted_category != "" then row.predicted_category
              else "General" })

/-! ### Duplicate detector (`FeedManager.detect_duplicates`) -/

/-- The shape of the dicts `detect_duplicates` inspects: a raw `url`, a
`title` and a `quality_score` (0 when absent). -/
structure DFeed where
  url : String
  title : String
  quality_score : ℚ
deriving DecidableEq, Repr

/-- The URL key of `detect_duplicates`: `url.lower().strip('/')`. -/
def dupNormUrl (s : String) : String := pyStripSlash (pyLower s)

/-- The seen-URL set after one record of `detect_duplicates`. -/
def urlUpd (f : DFeed) (seenU : List String) : List String :=
  if dupNormUrl f.url ∈ seenU then seenU else dupNormUrl f.url :: seenU

/-- The drop set after the URL check of one record of `detect_duplicates`:
on a collision the shared normalized key is added. -/
def dupUpd (f : DFeed) (seenU : List String) (dups : Finset String) : Finset String :=
  if dupNormUrl f.url ∈ seenU then insert (dupNormUrl f.url) dups else dups

/-- The normalized title key of a record (`title.lower().strip()` then the
alphanumeric filter). -/
def dTitleKey (f : DFeed) : String := titleKey (pyStripWS (pyLower f.title))

/-- The loop of `detect_duplicates`, threading the seen-URL set, the
title-key map, and the accumulated drop set.  On a URL collision the shared
normalized key is added; on a title-key collision the raw URL of the
lower-scored record is added (ties drop the later record's normalized key). -/
def detectLoop : List DFeed → List String → List (String × DFeed) → Finset String →
    Finset String
  | [], _, _, dups => dups
  | f :: rest, seenU, seenT, dups =>
    if pyStripWS (pyLower f.title) != "" then
      match seenT.find? (fun kv => kv.1 == dTitleKey f) with
      | some kv =>
        if kv.2.quality_score < f.quality_score then
          detectLoop rest (urlUpd f seenU) ((dTitleKey f, f) :: seenT)
            (insert kv.2.url (dupUpd f seenU dups))
        else
          detectLoop rest (urlUpd f seenU) seenT
            (insert (dupNormUrl f.url) (dupUpd f seenU dups))
      | none =>
        detectLoop rest (urlUpd f seenU) ((dTitleKey f, f) :: seenT)
          (dupUpd f seenU dups)
    else detectLoop rest (urlUpd f seenU) seenT (dupUpd f seenU dups)

/-- `FeedManager.detect_duplicates(feeds)`: the set of keys to drop. -/
def detect_duplicates (feeds : List DFeed) : Finset String :=
  detectLoop feeds [] [] ∅

/-! ### Stable sort (Python `list.sort` is stable; insertion from the right
with a strict comparison reproduces it) -/

/-- Insert `a` into `l` before the first element that is not strictly below
it: stable insertion for an already-processed suffix. -/
def insS (lt : α → α → Bool) (a : α) : List α → List α
  | [] => [a]
  | b :: bs => if lt b a then b :: insS lt a bs else a :: b :: bs

/-- Stable sort with strict comparison `lt` (`lt b a` means `b` must come
before `a`): the behaviour of Python `list.sort(key=...)`. -/
def pySort (lt : α → α → Bool) : List α → List α
  | [] => []
  | a :: rest => insS lt a (pySort lt rest)

/-! ### Mergers -/

/-- The working shape inside `FeedManager.merge_feeds`: a record plus the
`quality_score` and `existing` fields the function adds. -/
structure MergedFeed where
  rcd : CuratedRecord
  quality_score : ℚ
  existing : Bool
deriving DecidableEq, Repr

/-- Normalization of an existing record (`quality_score: 100, existing: True`). -/
def normExisting (f : CuratedRecord) : MergedFeed := ⟨f, 100, true⟩

/-- Normalization of a newly validated record. -/
def normNew (f : FeedData) : MergedFeed :=
  ⟨⟨f.rss_url, f.title, f.categories, f.language⟩, f.quality_score, false⟩

/-- The URL dedup pass of `merge_feeds`: first occurrence of each
lower-cased `rss_url` wins. -/
def dedupMF : List MergedFeed → List String → List MergedFeed
  | [], _ => []
  | f :: rest, seen =>
    if pyLower f.rcd.rss_url ∈ seen then dedupMF rest seen
    else f :: dedupMF rest (pyLower f.rcd.rss_url :: seen)

/-- Sort rank of `merge_feeds` (`0 if existing else 1`). -/
def mfRank (m : MergedFeed) : Nat := if m.existing then 0 else 1

/-- The sort key comparison of `merge_feeds`: existing first, then quality
score descending (`a` strictly precedes `b`). -/
def mfLt (a b : MergedFeed) : Bool :=
  mfRank a < mfRank b || (mfRank a == mfRank b && b.quality_score < a.quality_score)

/-- Strip back to the persisted schema. -/
def stripMF (m : MergedFeed) : CuratedRecord := m.rcd

/-- `FeedManager.merge_feeds(existing, new_feeds, max_feeds)`: normalize,
concatenate, dedup by lower-cased URL, stable-sort existing-first then by
score descending, truncate, strip. -/
def merge_feeds (existing : List CuratedRecord) (newFeeds : List FeedData)
    (maxFeeds : Nat) : List CuratedRecord :=
  ((pySort mfLt (dedupMF (existing.map normExisting ++ newFeeds.map normNew) [])).take
    maxFeeds).map stripMF

/-- The descending-score comparison of `merge_and_save`'s
`sort(key=..., reverse=True)`. -/
def fdLt (a b : FeedData) : Bool := b.quality_score < a.quality_score

/-- Strip a validated record to the persisted schema. -/
def stripFD (f : FeedData) : CuratedRecord := ⟨f.rss_url, f.title, f.categories, f.language⟩

/-- `QualityFeedExpander.merge_and_save` (and the identical
`PremiumScaler.merge_and_save`): sort the new feeds by score descending and
append their stripped records to the existing list — no deduplication. -/
def merge_and_save (existing : List CuratedRecord) (newFeeds : List FeedData) :
    List CuratedRecord :=
  existing ++ (pySort fdLt newFeeds).map stripFD

/-! ### Prefilter of expand_feeds (`get_quality_candidates`) -/

/-- The row predicate of `QualityFeedExpander.get_quality_candidates`:
not dead, http/https URL, non-blank title, no duplicate reference, at most 5
parse errors, a non-empty iTunes id, and a positive newest-item timestamp. -/
def ef_row_ok (r : CsvRow) : Bool :=
  r.dead == "0" && startsHttp r.url && pyStripWS r.title != "" &&
    r.duplicateof == "NULL" && decide (r.parse_errors ≤ 5) && r.itunes_id != "" &&
    decide (0 < r.newest_item_pubdate)

/-- `QualityFeedExpander.get_quality_candidates(limit)`: the matching rows in
order, stopping once `limit` of them are collected. -/
def get_quality_candidates (rows : List CsvRow) (limit : Nat) : List CsvRow :=
  (rows.filter ef_row_ok).take limit

/-! ### Selection loops

The loops fetch per candidate; the external world is bundled as `World`.
-/

/-- The external collaborators of one run: per-URL probe and fetch outcomes,
and the wall-clock time. -/
structure World where
  probe : String → Except String Int
  fetch : String → Except String ParsedFeed
  now : Int

/-- The loop of `QualityFeedExpander.process_candidates`: stop at the target
count, skip URLs already seen (lower-cased), validate, and on success accept
and remember the URL. -/
def loopEF (w : World) (minScore : ℚ) :
    List CsvRow → List String → Nat → List FeedData
  | [], _, _ => []
  | _ :: _, _, 0 => []
  | c :: rest, seen, Nat.succ r =>
    if pyLower c.url ∈ seen then loopEF w minScore rest seen (r + 1)
    else
      match validate_feed_ef (w.probe c.url) (w.fetch c.url) c w.now minScore with
      | (true, some fd) => fd :: loopEF w minScore rest (pyLower c.url :: seen) r
      | _ => loopEF w minScore rest seen (r + 1)

/-- `QualityFeedExpander.process_candidates(candidates, target_count)`. -/
def process_candidates_ef (w : World) (minScore : ℚ) (existing : List CuratedRecord)
    (candidates : List CsvRow) (target : Nat) : List FeedData :=
  loopEF w minScore candidates (existing.map fun f => pyLower f.rss_url) target

/-- The per-category quota table `PremiumScaler.target_categories`. -/
def e100TargetCategories : List (String × Nat) :=
  [("Technology", 15), ("Business", 12), ("News", 10), ("Science", 8),
   ("Comedy", 8), ("Health", 6), ("Sports", 6), ("Education", 5),
   ("True Crime", 5), ("Music", 5), ("Arts", 4), ("Politics", 4),
   ("Society", 4), ("History", 3), ("Finance", 3), ("Food", 2)]

/-- `self.target_categories.get(cat, 3)`. -/
def targetCategoriesE100 (c : String) : Nat :=
  ((e100TargetCategories.find? fun kv => kv.1 == c).map (·.2)).getD 3

/-- Increment one category's tally (`category_counts[primary] += 1`). -/
def bumpCount (counts : String → Nat) (c : String) : String → Nat :=
  fun s => if s = c then counts s + 1 else counts s

/-- The primary (first) category of a validated record,
`feed_data.get('categories', ['General'])[0]`. -/
def primaryCat (fd : FeedData) : String := fd.categories.headD "General"

/-- The loop of `PremiumScaler.process_candidates`: stop at the target, skip
seen URLs, validate, and accept only while this run's count for the primary
category of the validated record is below its quota (existing feeds are not
counted). -/
def loopE100 (w : World) (minScore : ℚ) :
    List CsvRow → List String → Nat → (String → Nat) → List FeedData
  | [], _, _, _ => []
  | _ :: _, _, 0, _ => []
  | c :: rest, seen, Nat.succ r, counts =>
    if pyLower c.url ∈ seen then loopE100 w minScore rest seen (r + 1) counts
    else
      match validate_feed_e100 (w.probe c.url) (w.fetch c.url) c w.now minScore with
      | (true, some fd) =>
        if counts (primaryCat fd) < targetCategoriesE100 (primaryCat fd) then
          fd :: loopE100 w minScore rest (pyLower c.url :: seen) r
            (bumpCount counts (primaryCat fd))
        else loopE100 w minScore rest seen (r + 1) counts
      | _ => loopE100 w minScore rest seen (r + 1) counts

/-- `PremiumScaler.process_candidates(candidates, target_new)`. -/
def process_candidates_e100 (w : World) (minScore : ℚ) (existing : List CuratedRecord)
    (candidates : List CsvRow) (target : Nat) : List FeedData :=
  loopE100 w minScore candidates (existing.map fun f => pyLower f.rss_url) target
    (fun _ => 0)

/-! ### quick_100_expansion: `categorize_feed` and `select_balanced_feeds` -/

/-- The keyword table of `quick_100_expansion.categorize_feed`. -/
def q100CategoryKeywords : List (String × List String) :=
  [("Technology", ["tech", "programming", "software", "ai", "startup", "coding",
      "developer", "digital"]),
   ("Business", ["business", "entrepreneur", "marketing", "finance", "leadership",
      "startup", "company"]),
   ("News", ["news", "politics", "current", "journalism", "daily", "weekly",
      "report"]),
   ("Science", ["science", "research", "physics", "biology", "chemistry", "space",
      "nature"]),
   ("Comedy", ["comedy", "humor", "funny", "laugh", "standup", "improv", "joke"]),
   ("Health", ["health", "fitness", "wellness", "medical", "nutrition", "mental",
      "therapy"]),
   ("Sports", ["sports", "football", "basketball", "baseball", "soccer", "fitness",
      "athletic"]),
   ("Education", ["education", "learning", "teaching", "university", "academic",
      "school"]),
   ("Music", ["music", "artist", "album", "song", "musician", "band", "audio"]),
   ("True Crime", ["crime", "murder", "investigation", "detective", "mystery",
      "police"]),
   ("History", ["history", "historical", "ancient", "war", "past", "civilization"]),
   ("Finance", ["finance", "money", "investing", "stocks", "crypto", "economy",
      "wealth"]),
   ("Entertainment", ["tv", "film", "movie", "entertainment", "celebrity", "show",
      "review"]),
   ("Religion", ["religion", "spiritual", "faith", "church", "god", "bible",
      "prayer"]),
   ("Society", ["society", "culture", "social", "community", "people", "life"])]

/-- `categorize_feed(row)`: score each category by keyword occurrences in the
lower-cased title+description; the highest count wins, first-declared on
ties; `General` when nothing matches (Python `max` keeps the first maximum). -/
def categorize_feed (row : CsvRow) : String :=
  let content := pyLower (row.title ++ " " ++ row.description)
  let scored := q100CategoryKeywords.filterMap fun ck =>
    let s := kwCount content ck.2
    if 0 < s then some (ck.1, s) else none
  match scored with
  | [] => "General"
  | x :: xs => (xs.foldl (fun best y => if best.2 < y.2 then y else best) x).1

/-- The target distribution of `select_balanced_feeds`. -/
def quick100Distribution : List (String × Nat) :=
  [("Technology", 15), ("Business", 12), ("News", 10), ("Science", 8),
   ("Comedy", 8), ("Health", 6), ("Sports", 6), ("Education", 5), ("Music", 5),
   ("Entertainment", 5), ("Finance", 4), ("True Crime", 4), ("History", 3),
   ("Religion", 3), ("Society", 3), ("General", 3)]

/-- Occurrences of category `c` across the `categories` lists of the feeds
(the `current_counts` tally). -/
def countCat (c : String) (feeds : List CuratedRecord) : Nat :=
  ((feeds.map fun f => (f.categories.filter (· == c)).length)).sum

/-- The inner loop of `select_balanced_feeds` for one category: pick up to
`need` candidates whose lower-cased URL is unseen, emitting records with that
single category and language `en`, threading the seen set. -/
def pickLoop (cat : String) :
    List CsvRow → Nat → List String → List CuratedRecord × List String
  | [], _, seen => ([], seen)
  | _ :: _, 0, seen => ([], seen)
  | c :: rest, Nat.succ n, seen =>
    if pyLower c.url ∈ seen then pickLoop cat rest (n + 1) seen
    else
      (⟨c.url, c.title, [cat], "en"⟩ :: (pickLoop cat rest n (pyLower c.url :: seen)).1,
        (pickLoop cat rest n (pyLower c.url :: seen)).2)

/-- The outer loop of `select_balanced_feeds` over the needed-per-category
list, in declaration order, grouping candidates by `categorize_feed`. -/
def selOuter (cands : List CsvRow) :
    List (String × Nat) → List String → List CuratedRecord
  | [], _ => []
  | (cat, need) :: rest, seen =>
    (pickLoop cat (cands.filter fun c => categorize_feed c == cat) need seen).1 ++
      selOuter cands rest
        (pickLoop cat (cands.filter fun c => categorize_feed c == cat) need seen).2

/-- `select_balanced_feeds(candidates, current_feeds, target_total)`: compute
`needed[cat] = max(0, target - current)` (ℕ subtraction) and greedily fill
category by category.  The `target_total` parameter is carried to mirror the
source signature; the source never reads it. -/
def select_balanced_feeds (candidates : List CsvRow) (current : List CuratedRecord)
    (_targetTotal : Nat) : List CuratedRecord :=
  selOuter candidates
    (quick100Distribution.map fun cq => (cq.1, cq.2 - countCat cq.1 current))
    (current.map fun f => pyLower f.rss_url)

/-! ### Bounds of the quality scorers -/

theorem b2q_nonneg (b : Bool) {p : ℚ} (hp : 0 ≤ p) : 0 ≤ b2q b p := by
  unfold b2q
  split
  · exact hp
  · exact le_refl 0

theorem b2q_le (b : Bool) {p : ℚ} (hp : 0 ≤ p) : b2q b p ≤ p := by
  unfold b2q
  split
  · exact le_refl p
  · exact hp

theorem feedMetaFM_bounds (f : ParsedFeed) : 0 ≤ feedMetaFM f ∧ feedMetaFM f ≤ 25 := by
  have h5 : (0 : ℚ) ≤ 5 := by norm_num
  have n1 := b2q_nonneg (f.title != "") h5
  have n2 := b2q_nonneg (f.description != "") h5
  have n3 := b2q_nonneg (f.author != "") h5
  have n4 := b2q_nonneg (f.language != "") h5
  have n5 := b2q_nonneg (f.hasImage || f.logo != "") h5
  have l1 := b2q_le (f.title != "") h5
  have l2 := b2q_le (f.description != "") h5
  have l3 := b2q_le (f.author != "") h5
  have l4 := b2q_le (f.language != "") h5
  have l5 := b2q_le (f.hasImage || f.logo != "") h5
  unfold feedMetaFM
  constructor
  · linarith
  · linarith

theorem feedMetaEF_bounds (f : ParsedFeed) : 0 ≤ feedMetaEF f ∧ feedMetaEF f ≤ 25 := by
  have h5 : (0 : ℚ) ≤ 5 := by norm_num
  have n1 := b2q_nonneg (f.title != "") h5
  have n2 := b2q_nonneg (f.description != "") h5
  have n3 := b2q_nonneg (f.author != "") h5
  have n4 := b2q_nonneg (f.language != "") h5
  have n5 := b2q_nonneg ((f.hasImage && f.imageHref != "") || f.logo != "") h5
  have l1 := b2q_le (f.title != "") h5
  have l2 := b2q_le (f.description != "") h5
  have l3 := b2q_le (f.author != "") h5
  have l4 := b2q_le (f.language != "") h5
  have l5 := b2q_le ((f.hasImage && f.imageHref != "") || f.logo != "") h5
  unfold feedMetaEF
  constructor
  · linarith
  · linarith

theorem entryMetaFM_nonneg (e : FeedEntry) : 0 ≤ entryMetaFM e := by
  have h2 : (0 : ℚ) ≤ 2 := by norm_num
  have n1 := b2q_nonneg (e.title != "") h2
  have n2 := b2q_nonneg (e.description != "") h2
  have n3 := b2q_nonneg e.hasEnclosures h2
  unfold entryMetaFM
  linarith

theorem entryMetaEF_nonneg (e : FeedEntry) : 0 ≤ entryMetaEF e := by
  have h2 : (0 : ℚ) ≤ 2 := by norm_num
  have n1 := b2q_nonneg (e.title != "") h2
  have n2 := b2q_nonneg (e.description != "" || e.summary != "") h2
  have n3 := b2q_nonneg e.hasEnclosures h2
  unfold entryMetaEF
  linarith

theorem entryMetaE100_nonneg (e : FeedEntry) : 0 ≤ entryMetaE100 e := by
  have h1 : (0 : ℚ) ≤ 1 := by norm_num
  have h2 : (0 : ℚ) ≤ 3/2 := by norm_num
  have n1 := b2q_nonneg (e.title != "") h2
  have n2 := b2q_nonneg (e.description != "" || e.summary != "") h2
  have n3 := b2q_nonneg e.hasEnclosures h1
  unfold entryMetaE100
  linarith

theorem entrySum_nonneg {g : FeedEntry → ℚ} (hg : ∀ e, 0 ≤ g e) (l : List FeedEntry) :
    0 ≤ (l.map g).sum := by
  refine List.sum_nonneg fun x hx => ?_
  obtain ⟨e, _, rfl⟩ := List.mem_map.1 hx
  exact hg e

theorem rawScoreFM_bounds (f : ParsedFeed) (now : Int) :
    0 ≤ rawScoreFM f now ∧ rawScoreFM f now ≤ 100 := by
  have hv0 : (0 : ℚ) ≤ min ((f.entries.length : ℚ) / 10) 20 :=
    le_min (by positivity) (by norm_num)
  have hv1 : min ((f.entries.length : ℚ) / 10) 20 ≤ 20 := min_le_right _ _
  have hr0 : (0 : ℚ) ≤ min ((recentCount 20 30 f.entries now : ℚ) * 5) 25 :=
    le_min (by positivity) (by norm_num)
  have hr1 : min ((recentCount 20 30 f.entries now : ℚ) * 5) 25 ≤ 25 := min_le_right _ _
  have hm := feedMetaFM_bounds f
  have he0 : (0 : ℚ) ≤ min (((f.entries.take 5).map entryMetaFM).sum) 30 :=
    le_min (entrySum_nonneg entryMetaFM_nonneg _) (by norm_num)
  have he1 : min (((f.entries.take 5).map entryMetaFM).sum) 30 ≤ 30 := min_le_right _ _
  unfold rawScoreFM
  constructor
  · linarith [hm.1]
  · linarith [hm.2]

theorem rawScoreEF_bounds (f : ParsedFeed) (row : CsvRow) (now : Int) :
    0 ≤ rawScoreEF f row now ∧ rawScoreEF f row now ≤ 115 := by
  have hv0 : (0 : ℚ) ≤ min ((f.entries.length : ℚ) / 5) 20 :=
    le_min (by positivity) (by norm_num)
  have hv1 : min ((f.entries.length : ℚ) / 5) 20 ≤ 20 := min_le_right _ _
  have hr0 : (0 : ℚ) ≤ min ((recentCount 10 60 f.entries now : ℚ) * 5) 25 :=
    le_min (by positivity) (by norm_num)
  have hr1 : min ((recentCount 10 60 f.entries now : ℚ) * 5) 25 ≤ 25 := min_le_right _ _
  have hm := feedMetaEF_bounds f
  have he0 : (0 : ℚ) ≤ min (((f.entries.take 5).map entryMetaEF).sum) 30 :=
    le_min (entrySum_nonneg entryMetaEF_nonneg _) (by norm_num)
  have he1 : min (((f.entries.take 5).map entryMetaEF).sum) 30 ≤ 30 := min_le_right _ _
  have hb1 := b2q_nonneg (row.itunes_id != "") (show (0:ℚ) ≤ 10 by norm_num)
  have hb2 := b2q_le (row.itunes_id != "") (show (0:ℚ) ≤ 10 by norm_num)
  have hb3 := b2q_nonneg (decide (50 < f.entries.length)) (show (0:ℚ) ≤ 5 by norm_num)
  have hb4 := b2q_le (decide (50 < f.entries.length)) (show (0:ℚ) ≤ 5 by norm_num)
  unfold rawScoreEF
  constructor
  · linarith [hm.1]
  · linarith [hm.2]

/-!
C3.  The claim: each quality scorer returns a value in
`[0, maxPossibleScore]` (100 for the feed_manager variant, 115 for the
expand_feeds variant: 20+25+25+30+10+5) that equals its own rounding to one
decimal place.  Both conjuncts hold for every parsed feed, every candidate
row and every observed time; for the expand_feeds variant also for a raised
fetch exception (score 0).
-/

/-- C3: the feed_manager scorer always lies in `[0, 100]`, the expand_feeds
scorer in `[0, 115]`, and both return fixed points of one-decimal rounding. -/
theorem c3_score_bounded_and_rounded :
    (∀ (f : ParsedFeed) (now : Int),
      0 ≤ calculate_quality_score_fm f now ∧
        calculate_quality_score_fm f now ≤ 100 ∧
        round1 (calculate_quality_score_fm f now) = calculate_quality_score_fm f now) ∧
    (∀ (fetch : Except String ParsedFeed) (row : CsvRow) (now : Int),
      0 ≤ calculate_quality_score_ef fetch row now ∧
        calculate_quality_score_ef fetch row now ≤ 115 ∧
        round1 (calculate_quality_score_ef fetch row now) =
          calculate_quality_score_ef fetch row now) := by
  constructor
  · intro f now
    have hb := rawScoreFM_bounds f now
    have h0 : calculate_quality_score_fm f now = round1 (rawScoreFM f now) := rfl
    rw [h0]
    refine ⟨round1_nonneg hb.1, ?_, round1_round1 _⟩
    have h100 : rawScoreFM f now ≤ ((100 : Int) : ℚ) := by exact_mod_cast hb.2
    have := round1_le h100
    exact_mod_cast this
  · intro fetch row now
    cases fetch with
    | error e =>
      have h0 : calculate_quality_score_ef (.error e) row now = 0 := rfl
      rw [h0]
      exact ⟨le_refl 0, by norm_num, round1_zero⟩
    | ok f =>
      have h0 : calculate_quality_score_ef (.ok f) row now =
          if f.bozo && f.entries.isEmpty then 0 else round1 (rawScoreEF f row now) := rfl
      rw [h0]
      split
      · exact ⟨le_refl 0, by norm_num, round1_zero⟩
      · have hb := rawScoreEF_bounds f row now
        refine ⟨round1_nonneg hb.1, ?_, round1_round1 _⟩
        have h115 : rawScoreEF f row now ≤ ((115 : Int) : ℚ) := by exact_mod_cast hb.2
        have := round1_le h115
        exact_mod_cast this

/-!
C10.  The expand_feeds prefilter admits a CSV row only when its `itunes_id`
is non-empty: confirmed, the `row.get('itunes_id')` truthiness test is one
of the conjuncts of `get_quality_candidates`'s condition.
-/

/-- C10: a row with an empty `itunes_id` never appears among the candidates
returned by `get_quality_candidates`, whatever the other fields hold. -/
theorem c10_no_candidate_without_itunes_id :
    ∀ (rows : List CsvRow) (limit : Nat) (r : CsvRow),
      r.itunes_id = "" → r ∉ get_quality_candidates rows limit := by
  intro rows limit r hid hmem
  unfold get_quality_candidates at hmem
  have h1 : r ∈ rows.filter ef_row_ok := List.mem_of_mem_take hmem
  have h2 : ef_row_ok r = true := (List.mem_filter.1 h1).2
  unfold ef_row_ok at h2
  simp only [Bool.and_eq_true, bne_iff_ne, ne_eq, decide_eq_true_eq] at h2
  exact h2.1.2 hid

/-- A row meeting every prefilter condition except the iTunes id. -/
def c10Row : CsvRow :=
  ⟨"https://ok.test/feed", "Great Tech Show", "", "0", "NULL", 0, "", 100, "", 0⟩

/-- C10 witness: the theorem applied to a concrete row that passes every
other documented prefilter condition but has an empty `itunes_id`. -/
theorem c10_witness : c10Row ∉ get_quality_candidates [c10Row] 5 :=
  c10_no_candidate_without_itunes_id [c10Row] 5 c10Row rfl

/-!
C8.  The claim says the score is a deterministic function of the
ParsedFeed/candidate input alone.  The sources read `datetime.now()` inside
`calculate_quality_score`, so two calls with the identical feed at different
wall-clock times can disagree: the claim is corrected.  What holds: the score
is a deterministic function of the input together with the observed time, and
two calls agree whenever they classify the entries' recency identically.
-/

/-- A one-entry feed whose entry was published at epoch second 1000: recent
for a call at `now = 1000`, stale for a call at `now = 10^9`. -/
def c8Feed : ParsedFeed :=
  ⟨false, "", "", "", "", false, "", "", none, [⟨"", "", "", some 1000, false⟩]⟩

/-- C8 counterexample: the identical parsed feed scored at two different
observed times yields two different scores (5.1 versus 0.1), so the score is
not a function of the feed/candidate input alone. -/
theorem c8_counterexample :
    calculate_quality_score_fm c8Feed 1000 ≠ calculate_quality_score_fm c8Feed 1000000000 := by
  have h1 : rawScoreFM c8Feed 1000 = ((51 : Int) : ℚ) / 10 := by
    norm_num [rawScoreFM, c8Feed, recentCount, daySecs, feedMetaFM, entryMetaFM, b2q,
      min_def, List.take, List.filter]
  have h2 : rawScoreFM c8Feed 1000000000 = ((1 : Int) : ℚ) / 10 := by
    norm_num [rawScoreFM, c8Feed, recentCount, daySecs, feedMetaFM, entryMetaFM, b2q,
      min_def, List.take, List.filter]
  have e1 : calculate_quality_score_fm c8Feed 1000 = ((51 : Int) : ℚ) / 10 := by
    unfold calculate_quality_score_fm
    rw [h1, round1_tenth]
  have e2 : calculate_quality_score_fm c8Feed 1000000000 = ((1 : Int) : ℚ) / 10 := by
    unfold calculate_quality_score_fm
    rw [h2, round1_tenth]
  rw [e1, e2]
  norm_num

/-- C8 amended: each scorer is a deterministic function of its input and the
observed current time; two calls with the identical input agree whenever
they observe the same recency classification of the entries (in particular
whenever they observe the same time). -/
theorem c8_deterministic_given_time :
    (∀ (f : ParsedFeed) (t₁ t₂ : Int),
      recentCount 20 30 f.entries t₁ = recentCount 20 30 f.entries t₂ →
      calculate_quality_score_fm f t₁ = calculate_quality_score_fm f t₂) ∧
    (∀ (f : ParsedFeed) (row : CsvRow) (t₁ t₂ : Int),
      recentCount 10 60 f.entries t₁ = recentCount 10 60 f.entries t₂ →
      calculate_quality_score_ef (.ok f) row t₁ = calculate_quality_score_ef (.ok f) row t₂) := by
  constructor
  · intro f t₁ t₂ h
    unfold calculate_quality_score_fm rawScoreFM
    rw [h]
  · intro f row t₁ t₂ h
    have h0 : ∀ t, calculate_quality_score_ef (.ok f) row t =
        if f.bozo && f.entries.isEmpty then 0 else round1 (rawScoreEF f row t) :=
      fun t => rfl
    rw [h0, h0]
    unfold rawScoreEF
    rw [h]

/-- An entry-less feed: its recency count is 0 at every observed time. -/
def c8BlankFeed : ParsedFeed := ⟨false, "", "", "", "", false, "", "", none, []⟩

/-- A blank candidate row. -/
def blankRow : CsvRow := ⟨"", "", "", "", "", 0, "", 0, "", 0⟩

/-- C8 witness: the amended determinism applied at a concrete feed and two
concrete distinct times with equal recency classification. -/
theorem c8_witness :
    calculate_quality_score_fm c8BlankFeed 0 = calculate_quality_score_fm c8BlankFeed 999 ∧
    calculate_quality_score_ef (.ok c8BlankFeed) blankRow 0 =
      calculate_quality_score_ef (.ok c8BlankFeed) blankRow 999 :=
  ⟨c8_deterministic_given_time.1 c8BlankFeed 0 999 (by decide),
   c8_deterministic_given_time.2 c8BlankFeed blankRow 0 999 (by decide)⟩

/-!
C7.  The claim: any exception in the probe or fetch of the validators is
caught and converted into a non-fatal rejection result "a failure flag plus
an error reason", never propagated.  Both validators catch (the embedding is
total and returns a failure value on every exception input), and
`validate_rss_feed` attaches the reason; but `validate_feed` in expand_feeds
returns the bare `(False, {})` — no error reason is attached to the result
(the message is only printed).  Corrected accordingly.
-/

/-- A concrete candidate row for the validator counterexample. -/
def c7Row : CsvRow :=
  ⟨"https://down.test/feed", "Down", "", "0", "NULL", 0, "123", 100, "", 0⟩

/-- C7 counterexample: a probe exception in `validate_feed` yields
`(False, {})` — the failure flag with an *empty* result dict; no error
reason is attached, refuting the claim's "failure flag plus an error
reason" for this validator. -/
theorem c7_counterexample :
    validate_feed_ef (.error "timed out") (.error "timed out") c7Row 0 60 =
      (false, none) := rfl

/-- C7 amended: a raised exception in the probe or the fetch is always
caught and mapped to a non-fatal rejection value — `validate_rss_feed`
attaches the exception text as the error reason, while `validate_feed`
returns the failure flag with an empty result; neither propagates. -/
theorem c7_exceptions_become_rejections :
    (∀ (e : String) (now : Int), validate_rss_feed (.error e) now = (false, .err e)) ∧
    (∀ (probe : Except String Int) (fetch : Except String ParsedFeed) (row : CsvRow)
        (now : Int) (minScore : ℚ),
      ((∃ e, probe = .error e) ∨ (∃ e, fetch = .error e)) →
      validate_feed_ef probe fetch row now minScore = (false, none)) := by
  constructor
  · intro e now
    rfl
  · intro probe fetch row now minScore h
    rcases h with ⟨e, rfl⟩ | ⟨e, rfl⟩
    · rfl
    · cases probe with
      | error e₂ => rfl
      | ok status =>
        show (if status != 200 then (false, none)
          else if calculate_quality_score_ef (.error e) row now < minScore then (false, none)
          else (false, none)) = (false, none)
        split
        · rfl
        · split
          · rfl
          · rfl

/-- C7 witness: the amended theorem applied at a concrete exception and
concrete inputs. -/
theorem c7_witness :
    validate_rss_feed (.error "boom") 0 = (false, .err "boom") ∧
    validate_feed_ef (.ok 200) (.error "boom") c7Row 0 (-1) = (false, none) :=
  ⟨c7_exceptions_become_rejections.1 "boom" 0,
   c7_exceptions_become_rejections.2 (.ok 200) (.error "boom") c7Row 0 (-1)
     (Or.inr ⟨"boom", rfl⟩)⟩

/-!
C4.  The claim: both category extractors return an ordered list of at most 2
labels and never an empty one, with a keyword fallback on title+description
and a final `General` fallback.  `extract_enhanced_categories` does cap at 2,
but `FeedManager.extract_categories` caps at `[:3]` — a feed with three
tagged terms yields three labels — and its keyword fallback inspects the
description alone, not title+description.  Corrected accordingly; the
never-empty part holds for both.
-/

theorem takeBounds {α : Type} (l : List α) (h : l ≠ []) (n : Nat) (hn : 0 < n) :
    1 ≤ (l.take n).length ∧ (l.take n).length ≤ n := by
  have hl : 0 < l.length := List.length_pos.2 h
  rw [List.length_take]
  omega

theorem fmKeywordFallback_ne_nil (d : String) : fmKeywordFallback d ≠ [] := by
  unfold fmKeywordFallback
  split_ifs <;> simp

theorem fmRawCats_ne_nil (f : ParsedFeed) : fmRawCats f ≠ [] := by
  unfold fmRawCats
  split
  · exact fmKeywordFallback_ne_nil _
  · rename_i h
    intro hc
    rw [hc] at h
    simp at h

theorem e100RawCats_ne_nil (f : ParsedFeed) (row : CsvRow) : e100RawCats f row ≠ [] := by
  unfold e100RawCats
  split
  · simp
  · rename_i h
    intro hc
    rw [hc] at h
    simp at h

/-- A feed carrying three structured tag terms. -/
def c4Feed : ParsedFeed :=
  ⟨false, "", "", "", "", false, "", "", some ["Arts", "Books", "Design"], []⟩

/-- C4 counterexample: `FeedManager.extract_categories` returns three labels
for a feed with three tagged terms, refuting the claimed cap of 2. -/
theorem c4_counterexample : ¬ (extract_categories_fm c4Feed).length ≤ 2 := by decide

/-- A feed with no tags, no metadata, no entries. -/
def blankFeed : ParsedFeed := ⟨false, "", "", "", "", false, "", "", none, []⟩

/-- C4 amended: `extract_enhanced_categories` returns 1–2 labels;
`extract_categories` returns 1–3 labels (its cap is 3, and its keyword
fallback inspects the description alone); when tags, prediction and keywords
all yield nothing, both return exactly `["General"]`. -/
theorem c4_category_extraction_bounds :
    (∀ f : ParsedFeed,
      1 ≤ (extract_categories_fm f).length ∧ (extract_categories_fm f).length ≤ 3) ∧
    (∀ (f : ParsedFeed) (row : CsvRow),
      1 ≤ (extract_enhanced_categories f row).length ∧
        (extract_enhanced_categories f row).length ≤ 2) ∧
    extract_categories_fm blankFeed = ["General"] ∧
    extract_enhanced_categories blankFeed blankRow = ["General"] := by
  refine ⟨fun f => ?_, fun f row => ?_, by decide, by decide⟩
  · exact takeBounds _ (fmRawCats_ne_nil f) 3 (by norm_num)
  · exact takeBounds _ (e100RawCats_ne_nil f row) 2 (by norm_num)

/-! ### Stable sort and dedup lemmas -/

theorem insS_perm (lt : α → α → Bool) (a : α) (l : List α) :
    List.Perm (insS lt a l) (a :: l) := by
  induction l with
  | nil => exact List.Perm.refl _
  | cons b bs ih =>
    unfold insS
    split
    · exact (ih.cons b).trans (List.Perm.swap a b bs)
    · exact List.Perm.refl _

theorem pySort_perm (lt : α → α → Bool) (l : List α) : List.Perm (pySort lt l) l := by
  induction l with
  | nil => exact List.Perm.refl _
  | cons a rest ih =>
    unfold pySort
    exact (insS_perm lt a (pySort lt rest)).trans (ih.cons a)

theorem insS_eq_cons {lt : α → α → Bool} {a : α} {l : List α}
    (h : ∀ b ∈ l, lt b a = false) : insS lt a l = a :: l := by
  cases l with
  | nil => rfl
  | cons b bs =>
    unfold insS
    simp [h b (List.mem_cons_self b bs)]

theorem pySort_eq_self {lt : α → α → Bool} {l : List α}
    (h : ∀ a ∈ l, ∀ b ∈ l, lt a b = false) : pySort lt l = l := by
  induction l with
  | nil => rfl
  | cons a rest ih =>
    unfold pySort
    rw [ih fun x hx y hy =>
      h x (List.mem_cons_of_mem _ hx) y (List.mem_cons_of_mem _ hy)]
    exact insS_eq_cons fun b hb =>
      h b (List.mem_cons_of_mem _ hb) a (List.mem_cons_self _ _)

theorem dedupMF_mem_not_seen {l : List MergedFeed} {seen : List String} {x : MergedFeed}
    (hx : x ∈ dedupMF l seen) : pyLower x.rcd.rss_url ∉ seen := by
  induction l generalizing seen with
  | nil => simp [dedupMF] at hx
  | cons f rest ih =>
    unfold dedupMF at hx
    by_cases hm : pyLower f.rcd.rss_url ∈ seen
    · rw [if_pos hm] at hx
      exact ih hx
    · rw [if_neg hm] at hx
      rcases List.mem_cons.1 hx with rfl | hx2
      · exact hm
      · exact fun hs => (ih hx2) (List.mem_cons_of_mem _ hs)

theorem dedupMF_pairwise (l : List MergedFeed) (seen : List String) :
    (dedupMF l seen).Pairwise
      (fun a b => pyLower a.rcd.rss_url ≠ pyLower b.rcd.rss_url) := by
  induction l generalizing seen with
  | nil => simp [dedupMF]
  | cons f rest ih =>
    unfold dedupMF
    by_cases hm : pyLower f.rcd.rss_url ∈ seen
    · rw [if_pos hm]
      exact ih seen
    · rw [if_neg hm]
      refine List.Pairwise.cons ?_ (ih _)
      intro y hy hc
      exact (dedupMF_mem_not_seen hy) (hc ▸ List.mem_cons_self _ _)

theorem dedupMF_eq_self {l : List MergedFeed} {seen : List String}
    (h1 : ∀ x ∈ l, pyLower x.rcd.rss_url ∉ seen)
    (h2 : l.Pairwise (fun a b => pyLower a.rcd.rss_url ≠ pyLower b.rcd.rss_url)) :
    dedupMF l seen = l := by
  induction l generalizing seen with
  | nil => rfl
  | cons f rest ih =>
    unfold dedupMF
    rw [if_neg (h1 f (List.mem_cons_self _ _))]
    congr 1
    refine ih (fun x hx hmem => ?_) (List.pairwise_cons.1 h2).2
    rcases List.mem_cons.1 hmem with heq | hseen
    · exact (List.pairwise_cons.1 h2).1 x hx heq.symm
    · exact h1 x (List.mem_cons_of_mem _ hx) hseen

/-!
C1.  The claim: both mergers always emit a collection whose `rssUrl` values
are pairwise distinct case-insensitively.  `merge_feeds` deduplicates by
lower-cased URL, so its output always is; `merge_and_save` performs no
deduplication at all — it appends the sorted new records to the existing
list — so duplicates in or across its inputs survive to the output.
Corrected: for `merge_and_save`, distinctness holds exactly when the
lower-cased URLs of `existing ++ new` are jointly pairwise distinct (the
guarantee `process_candidates` provides for the lists it produces when the
existing collection itself is duplicate-free).
-/

/-- An existing record and a new record carrying the same URL up to case. -/
def c1Existing : CuratedRecord := ⟨"https://dup.test/feed", "A", ["General"], "en"⟩

/-- The colliding new record. -/
def c1New : FeedData := ⟨"HTTPS://DUP.TEST/FEED", "B", ["General"], "en", 80, 0, "", ""⟩

/-- C1 counterexample: `merge_and_save` applied to an existing record and a
new record whose URLs agree case-insensitively keeps both, so its output is
not pairwise distinct. -/
theorem c1_counterexample :
    ¬ (merge_and_save [c1Existing] [c1New]).Pairwise
      (fun a b => pyLower a.rss_url ≠ pyLower b.rss_url) := by
  decide

/-- C1 amended: `merge_feeds` always emits pairwise case-insensitively
distinct `rss_url`s; `merge_and_save` does whenever the lower-cased URLs of
its two inputs are jointly pairwise distinct. -/
theorem c1_merger_url_distinct :
    (∀ (existing : List CuratedRecord) (newFeeds : List FeedData) (maxFeeds : Nat),
      (merge_feeds existing newFeeds maxFeeds).Pairwise
        (fun a b => pyLower a.rss_url ≠ pyLower b.rss_url)) ∧
    (∀ (existing : List CuratedRecord) (newFeeds : List FeedData),
      ((existing.map fun r => pyLower r.rss_url) ++
        (newFeeds.map fun f => pyLower f.rss_url)).Pairwise (· ≠ ·) →
      (merge_and_save existing newFeeds).Pairwise
        (fun a b => pyLower a.rss_url ≠ pyLower b.rss_url)) := by
  constructor
  · intro existing newFeeds maxFeeds
    have h1 := dedupMF_pairwise (existing.map normExisting ++ newFeeds.map normNew) []
    have hperm := pySort_perm mfLt
      (dedupMF (existing.map normExisting ++ newFeeds.map normNew) [])
    have h2 := h1.perm hperm.symm fun hxy => Ne.symm hxy
    have h3 := List.Pairwise.sublist (List.take_sublist maxFeeds _) h2
    unfold merge_feeds
    rw [List.pairwise_map]
    exact h3
  · intro existing newFeeds hp
    have hmm : (merge_and_save existing newFeeds).map (fun r => pyLower r.rss_url) =
        (existing.map fun r => pyLower r.rss_url) ++
          ((pySort fdLt newFeeds).map fun f => pyLower f.rss_url) := by
      unfold merge_and_save
      rw [List.map_append, List.map_map]
      rfl
    have hperm : List.Perm ((existing.map fun r => pyLower r.rss_url) ++
        ((pySort fdLt newFeeds).map fun f => pyLower f.rss_url))
        ((existing.map fun r => pyLower r.rss_url) ++
          (newFeeds.map fun f => pyLower f.rss_url)) :=
      List.Perm.append_left _ ((pySort_perm fdLt newFeeds).map _)
    have h2 := hp.perm hperm.symm fun hxy => Ne.symm hxy
    rw [← hmm] at h2
    exact List.pairwise_map.1 h2

/-- A second, non-colliding new record. -/
def c1NewOk : FeedData := ⟨"https://new.test/feed", "C", ["General"], "en", 70, 0, "", ""⟩

/-- C1 witness: both conjuncts applied at concrete inputs, the second with
its joint-distinctness hypothesis discharged by computation. -/
theorem c1_witness :
    (merge_feeds [c1Existing] [] 100).Pairwise
      (fun a b => pyLower a.rss_url ≠ pyLower b.rss_url) ∧
    (merge_and_save [c1Existing] [c1NewOk]).Pairwise
      (fun a b => pyLower a.rss_url ≠ pyLower b.rss_url) :=
  ⟨c1_merger_url_distinct.1 [c1Existing] [] 100,
   c1_merger_url_distinct.2 [c1Existing] [c1NewOk] (by decide)⟩

/-!
C5.  The claim: merging any existing collection `E` with no new candidates
returns `E` unchanged, for every `maxTotal`.  `merge_feeds` deduplicates by
lower-cased URL and truncates to `maxTotal`, so a collection holding two
case-equal URLs, or one longer than `maxTotal`, is changed.  Corrected: the
identity holds whenever `E`'s URLs are already pairwise distinct
case-insensitively and `E` fits within `maxTotal`.
-/

/-- Two records of one collection whose URLs collide case-insensitively. -/
def c5A : CuratedRecord := ⟨"https://same.test/feed", "A", ["General"], "en"⟩

/-- The collision partner of `c5A`. -/
def c5B : CuratedRecord := ⟨"HTTPS://SAME.TEST/FEED", "B", ["News"], "en"⟩

/-- C5 counterexample: a collection with two case-equal URLs is not returned
unchanged by `merge_feeds` with no new candidates — the second record is
dropped. -/
theorem c5_counterexample : merge_feeds [c5A, c5B] [] 100 ≠ [c5A, c5B] := by decide

/-- C5 amended: with no new candidates, `merge_feeds` returns the existing
collection unchanged provided its URLs are pairwise distinct
case-insensitively and it is no longer than `maxTotal`. -/
theorem c5_merge_noop (E : List CuratedRecord) (maxFeeds : Nat)
    (hdist : E.Pairwise (fun a b => pyLower a.rss_url ≠ pyLower b.rss_url))
    (hlen : E.length ≤ maxFeeds) :
    merge_feeds E [] maxFeeds = E := by
  unfold merge_feeds
  have hmap : E.map normExisting ++ ([] : List FeedData).map normNew =
      E.map normExisting := by simp
  rw [hmap]
  have hd : dedupMF (E.map normExisting) [] = E.map normExisting :=
    dedupMF_eq_self (fun x _ => List.not_mem_nil _) (List.pairwise_map.2 hdist)
  rw [hd]
  have hs : pySort mfLt (E.map normExisting) = E.map normExisting := by
    apply pySort_eq_self
    intro a ha b hb
    obtain ⟨ea, _, rfl⟩ := List.mem_map.1 ha
    obtain ⟨eb, _, rfl⟩ := List.mem_map.1 hb
    simp [mfLt, mfRank, normExisting, lt_irrefl]
  rw [hs]
  rw [List.take_of_length_le (by simpa using hlen)]
  rw [List.map_map]
  have hid : stripMF ∘ normExisting = id := rfl
  rw [hid, List.map_id]

/-- C5 witness: the amended idempotence applied at a concrete duplicate-free
collection that fits the cap. -/
theorem c5_witness : merge_feeds [c5A] [] 100 = [c5A] :=
  c5_merge_noop [c5A] 100 (by decide) (by decide)

/-!
C6.  The claim: when two records' URLs normalize to the same key,
`detect_duplicates` marks only the later occurrence for dropping, so the
first-seen record is retained.  The code adds the *shared normalized key* to
the drop set when the later occurrence is seen; that key is the
normalization of both records' URLs, and it equals a record's raw URL
whenever that URL is already in normalized form.  So whichever way a
consumer matches records against the returned set — by normalized URL or by
raw URL — the first-seen record is not reliably retained.  Corrected.
-/

/-- A first record whose raw URL is already in normalized form. -/
def c6First : DFeed := ⟨"https://x.test/feed", "Alpha", 0⟩

/-- A later record whose URL normalizes to the same key. -/
def c6Second : DFeed := ⟨"https://x.test/feed/", "Beta", 0⟩

/-- C6 counterexample: with the already-normalized URL first, the drop set
contains the first-seen record's raw URL (which is also its normalized URL),
so the first occurrence is marked for dropping — under raw-URL matching the
*later* record is the one retained, and under normalized-URL matching both
records match the drop set; either way "only the later occurrence is
dropped" fails. -/
theorem c6_counterexample :
    c6First.url ∈ detect_duplicates [c6First, c6Second] ∧
    dupNormUrl c6First.url ∈ detect_duplicates [c6First, c6Second] := by
  constructor <;> decide

/-- C6 amended: for two records whose URLs normalize to the same key and
whose title keys differ, `detect_duplicates` returns exactly the singleton
holding the shared normalized URL key — it identifies the duplicated URL,
not the later occurrence specifically. -/
theorem c6_detect_marks_shared_key (r1 r2 : DFeed)
    (hurl : dupNormUrl r1.url = dupNormUrl r2.url)
    (htitle : dTitleKey r1 ≠ dTitleKey r2) :
    detect_duplicates [r1, r2] = {dupNormUrl r1.url} := by
  unfold detect_duplicates
  by_cases ht1 : (pyStripWS (pyLower r1.title) != "") = true
  · by_cases ht2 : (pyStripWS (pyLower r2.title) != "") = true
    · have hfind : List.find? (fun kv => kv.1 == dTitleKey r2) [(dTitleKey r1, r1)] =
          none := by
        have hbeq : (dTitleKey r1 == dTitleKey r2) = false := beq_eq_false_iff_ne.2 htitle
        simp [List.find?, hbeq]
      simp [detectLoop, ht1, ht2, hfind, urlUpd, dupUpd, hurl]
    · simp [detectLoop, ht1, ht2, urlUpd, dupUpd, hurl]
  · by_cases ht2 : (pyStripWS (pyLower r2.title) != "") = true
    · simp [detectLoop, ht1, ht2, urlUpd, dupUpd, hurl]
    · simp [detectLoop, ht1, ht2, urlUpd, dupUpd, hurl]

/-- C6 witness: the amended theorem applied at the spec's own scenario URLs
(`https://x.test/feed/` seen first, `https://x.test/feed` second), with both
hypotheses discharged by computation. -/
theorem c6_witness : detect_duplicates [c6Second, c6First] = {dupNormUrl c6Second.url} :=
  c6_detect_marks_shared_key c6Second c6First (by decide) (by decide)

/-! ### Properties of the selection loops -/

theorem loopEF_length_le (w : World) (minS : ℚ) :
    ∀ (l : List CsvRow) (seen : List String) (r : Nat),
      (loopEF w minS l seen r).length ≤ r := by
  intro l
  induction l with
  | nil => intro seen r; simp [loopEF]
  | cons c rest ih =>
    intro seen r
    cases r with
    | zero => simp [loopEF]
    | succ r =>
      simp only [loopEF]
      by_cases hm : pyLower c.url ∈ seen
      · simp only [if_pos hm]
        exact ih seen (r + 1)
      · simp only [if_neg hm]
        rcases hv : validate_feed_ef (w.probe c.url) (w.fetch c.url) c w.now minS
          with ⟨b, ofd⟩
        cases b with
        | false =>
          cases ofd with
          | none => exact ih seen (r + 1)
          | some fd => exact ih seen (r + 1)
        | true =>
          cases ofd with
          | none => exact ih seen (r + 1)
          | some fd =>
            show (fd :: loopEF w minS rest (pyLower c.url :: seen) r).length ≤ r + 1
            rw [List.length_cons]
            exact Nat.succ_le_succ (ih (pyLower c.url :: seen) r)

theorem loopEF_stab (w : World) (minS : ℚ) :
    ∀ (l : List CsvRow) (seen : List String) (r k : Nat),
      (loopEF w minS l seen r).length < r →
      loopEF w minS l seen (r + k) = loopEF w minS l seen r := by
  intro l
  induction l with
  | nil => intro seen r k _; simp [loopEF]
  | cons c rest ih =>
    intro seen r k h
    cases r with
    | zero => simp [loopEF] at h
    | succ r =>
      rw [show r + 1 + k = (r + k) + 1 by omega]
      simp only [loopEF] at h ⊢
      by_cases hm : pyLower c.url ∈ seen
      · simp only [if_pos hm] at h ⊢
        rw [show r + k + 1 = (r + 1) + k by omega]
        exact ih seen (r + 1) k h
      · simp only [if_neg hm] at h ⊢
        rcases hv : validate_feed_ef (w.probe c.url) (w.fetch c.url) c w.now minS
          with ⟨b, ofd⟩
        rw [hv] at h
        cases b with
        | false =>
          cases ofd with
          | none =>
            rw [show r + k + 1 = (r + 1) + k by omega]
            exact ih seen (r + 1) k h
          | some fd =>
            rw [show r + k + 1 = (r + 1) + k by omega]
            exact ih seen (r + 1) k h
        | true =>
          cases ofd with
          | none =>
            rw [show r + k + 1 = (r + 1) + k by omega]
            exact ih seen (r + 1) k h
          | some fd =>
            have h2 : (loopEF w minS rest (pyLower c.url :: seen) r).length < r := by
              have h3 : (fd :: loopEF w minS rest (pyLower c.url :: seen) r).length <
                  r + 1 := h
              rw [List.length_cons] at h3
              omega
            show fd :: loopEF w minS rest (pyLower c.url :: seen) (r + k) =
              fd :: loopEF w minS rest (pyLower c.url :: seen) r
            rw [ih (pyLower c.url :: seen) r k h2]

theorem loopE100_length_le (w : World) (minS : ℚ) :
    ∀ (l : List CsvRow) (seen : List String) (r : Nat) (counts : String → Nat),
      (loopE100 w minS l seen r counts).length ≤ r := by
  intro l
  induction l with
  | nil => intro seen r counts; simp [loopE100]
  | cons c rest ih =>
    intro seen r counts
    cases r with
    | zero => simp [loopE100]
    | succ r =>
      simp only [loopE100]
      by_cases hm : pyLower c.url ∈ seen
      · simp only [if_pos hm]
        exact ih seen (r + 1) counts
      · simp only [if_neg hm]
        rcases hv : validate_feed_e100 (w.probe c.url) (w.fetch c.url) c w.now minS
          with ⟨b, ofd⟩
        cases b with
        | false =>
          cases ofd with
          | none => exact ih seen (r + 1) counts
          | some fd => exact ih seen (r + 1) counts
        | true =>
          cases ofd with
          | none => exact ih seen (r + 1) counts
          | some fd =>
            show (if counts (primaryCat fd) < targetCategoriesE100 (primaryCat fd) then
                fd :: loopE100 w minS rest (pyLower c.url :: seen) r
                  (bumpCount counts (primaryCat fd))
              else loopE100 w minS rest seen (r + 1) counts).length ≤ r + 1
            split
            · rw [List.length_cons]
              exact Nat.succ_le_succ (ih (pyLower c.url :: seen) r _)
            · exact ih seen (r + 1) counts

theorem loopE100_stab (w : World) (minS : ℚ) :
    ∀ (l : List CsvRow) (seen : List String) (r k : Nat) (counts : String → Nat),
      (loopE100 w minS l seen r counts).length < r →
      loopE100 w minS l seen (r + k) counts = loopE100 w minS l seen r counts := by
  intro l
  induction l with
  | nil => intro seen r k counts _; simp [loopE100]
  | cons c rest ih =>
    intro seen r k counts h
    cases r with
    | zero => simp [loopE100] at h
    | succ r =>
      rw [show r + 1 + k = (r + k) + 1 by omega]
      simp only [loopE100] at h ⊢
      by_cases hm : pyLower c.url ∈ seen
      · simp only [if_pos hm] at h ⊢
        rw [show r + k + 1 = (r + 1) + k by omega]
        exact ih seen (r + 1) k counts h
      · simp only [if_neg hm] at h ⊢
        rcases hv : validate_feed_e100 (w.probe c.url) (w.fetch c.url) c w.now minS
          with ⟨b, ofd⟩
        rw [hv] at h
        cases b with
        | false =>
          cases ofd with
          | none =>
            rw [show r + k + 1 = (r + 1) + k by omega]
            exact ih seen (r + 1) k counts h
          | some fd =>
            rw [show r + k + 1 = (r + 1) + k by omega]
            exact ih seen (r + 1) k counts h
        | true =>
          cases ofd with
          | none =>
            rw [show r + k + 1 = (r + 1) + k by omega]
            exact ih seen (r + 1) k counts h
          | some fd =>
            by_cases hg : counts (primaryCat fd) < targetCategoriesE100 (primaryCat fd)
            · have h3 : (fd :: loopE100 w minS rest (pyLower c.url :: seen) r
                  (bumpCount counts (primaryCat fd))).length < r + 1 := by
                have h4 : (if counts (primaryCat fd) <
                      targetCategoriesE100 (primaryCat fd) then
                    fd :: loopE100 w minS rest (pyLower c.url :: seen) r
                      (bumpCount counts (primaryCat fd))
                  else loopE100 w minS rest seen (r + 1) counts).length < r + 1 := h
                rwa [if_pos hg] at h4
              have h2 : (loopE100 w minS rest (pyLower c.url :: seen) r
                  (bumpCount counts (primaryCat fd))).length < r := by
                rw [List.length_cons] at h3
                omega
              show (if counts (primaryCat fd) < targetCategoriesE100 (primaryCat fd) then
                  fd :: loopE100 w minS rest (pyLower c.url :: seen) (r + k)
                    (bumpCount counts (primaryCat fd))
                else loopE100 w minS rest seen ((r + k) + 1) counts) =
                (if counts (primaryCat fd) < targetCategoriesE100 (primaryCat fd) then
                  fd :: loopE100 w minS rest (pyLower c.url :: seen) r
                    (bumpCount counts (primaryCat fd))
                else loopE100 w minS rest seen (r + 1) counts)
              rw [if_pos hg, if_pos hg, ih (pyLower c.url :: seen) r k _ h2]
            · have h3 : (loopE100 w minS rest seen (r + 1) counts).length < r + 1 := by
                have h4 : (if counts (primaryCat fd) <
                      targetCategoriesE100 (primaryCat fd) then
                    fd :: loopE100 w minS rest (pyLower c.url :: seen) r
                      (bumpCount counts (primaryCat fd))
                  else loopE100 w minS rest seen (r + 1) counts).length < r + 1 := h
                rwa [if_neg hg] at h4
              show (if counts (primaryCat fd) < targetCategoriesE100 (primaryCat fd) then
                  fd :: loopE100 w minS rest (pyLower c.url :: seen) (r + k)
                    (bumpCount counts (primaryCat fd))
                else loopE100 w minS rest seen ((r + k) + 1) counts) =
                (if counts (primaryCat fd) < targetCategoriesE100 (primaryCat fd) then
                  fd :: loopE100 w minS rest (pyLower c.url :: seen) r
                    (bumpCount counts (primaryCat fd))
                else loopE100 w minS rest seen (r + 1) counts)
              rw [if_neg hg, if_neg hg,
                show (r + k) + 1 = (r + 1) + k by omega]
              exact ih seen (r + 1) k counts h3

theorem loopE100_countP_le (w : World) (minS : ℚ) (cat : String) :
    ∀ (l : List CsvRow) (seen : List String) (r : Nat) (counts : String → Nat),
      (loopE100 w minS l seen r counts).countP (fun fd => primaryCat fd == cat) ≤
        targetCategoriesE100 cat - counts cat := by
  intro l
  induction l with
  | nil => intro seen r counts; simp [loopE100]
  | cons c rest ih =>
    intro seen r counts
    cases r with
    | zero => simp [loopE100]
    | succ r =>
      simp only [loopE100]
      by_cases hm : pyLower c.url ∈ seen
      · simp only [if_pos hm]
        exact ih seen (r + 1) counts
      · simp only [if_neg hm]
        rcases hv : validate_feed_e100 (w.probe c.url) (w.fetch c.url) c w.now minS
          with ⟨b, ofd⟩
        cases b with
        | false =>
          cases ofd with
          | none => exact ih seen (r + 1) counts
          | some fd => exact ih seen (r + 1) counts
        | true =>
          cases ofd with
          | none => exact ih seen (r + 1) counts
          | some fd =>
            show (if counts (primaryCat fd) < targetCategoriesE100 (primaryCat fd) then
                fd :: loopE100 w minS rest (pyLower c.url :: seen) r
                  (bumpCount counts (primaryCat fd))
              else loopE100 w minS rest seen (r + 1) counts).countP
                (fun fd => primaryCat fd == cat) ≤
              targetCategoriesE100 cat - counts cat
            split
            · rename_i hg
              rw [List.countP_cons]
              by_cases hpc : primaryCat fd = cat
              · rw [hpc] at hg
                have hif : (if (primaryCat fd == cat) = true then 1 else 0) = 1 := by
                  simp [hpc]
                rw [hif]
                have hih := ih (pyLower c.url :: seen) r
                  (bumpCount counts (primaryCat fd))
                have hbump : bumpCount counts (primaryCat fd) cat = counts cat + 1 := by
                  simp [bumpCount, hpc]
                rw [hbump] at hih
                omega
              · have hbeq : (primaryCat fd == cat) = false := beq_eq_false_iff_ne.2 hpc
                have hif : (if (primaryCat fd == cat) = true then 1 else 0) = 0 := by
                  simp [hbeq]
                rw [hif]
                have hih := ih (pyLower c.url :: seen) r
                  (bumpCount counts (primaryCat fd))
                have hbump : bumpCount counts (primaryCat fd) cat = counts cat := by
                  simp [bumpCount]
                  intro hc
                  exact absurd hc.symm hpc
                rw [hbump] at hih
                omega
            · exact ih seen (r + 1) counts

theorem pickLoop_length_le (cat : String) :
    ∀ (l : List CsvRow) (n : Nat) (seen : List String),
      (pickLoop cat l n seen).1.length ≤ n := by
  intro l
  induction l with
  | nil => intro n seen; simp [pickLoop]
  | cons c rest ih =>
    intro n seen
    cases n with
    | zero => simp [pickLoop]
    | succ n =>
      simp only [pickLoop]
      by_cases hm : pyLower c.url ∈ seen
      · simp only [if_pos hm]
        exact ih (n + 1) seen
      · simp only [if_neg hm]
        rw [List.length_cons]
        exact Nat.succ_le_succ (ih n (pyLower c.url :: seen))

theorem pickLoop_cats (cat : String) :
    ∀ (l : List CsvRow) (n : Nat) (seen : List String) (x : CuratedRecord),
      x ∈ (pickLoop cat l n seen).1 → x.categories = [cat] := by
  intro l
  induction l with
  | nil => intro n seen x hx; simp [pickLoop] at hx
  | cons c rest ih =>
    intro n seen x hx
    cases n with
    | zero => simp [pickLoop] at hx
    | succ n =>
      simp only [pickLoop] at hx
      by_cases hm : pyLower c.url ∈ seen
      · rw [if_pos hm] at hx
        exact ih (n + 1) seen x hx
      · rw [if_neg hm] at hx
        rcases List.mem_cons.1 hx with rfl | hx2
        · rfl
        · exact ih n (pyLower c.url :: seen) x hx2

/-- The primary (first) category of a selected record. -/
def primaryCatCR (r : CuratedRecord) : String := r.categories.headD "General"

theorem selOuter_countP_zero (cands : List CsvRow) (cat : String) :
    ∀ (needs : List (String × Nat)) (seen : List String),
      cat ∉ needs.map Prod.fst →
      (selOuter cands needs seen).countP (fun r => primaryCatCR r == cat) = 0 := by
  intro needs
  induction needs with
  | nil => intro seen _; simp [selOuter]
  | cons cn rest ih =>
    intro seen hnot
    rcases cn with ⟨c, n⟩
    have hc : c ≠ cat := by
      intro hc
      exact hnot (by simp [hc])
    have hrest : cat ∉ rest.map Prod.fst := by
      intro hmem
      exact hnot (by simp [hmem])
    simp only [selOuter]
    rw [List.countP_append]
    have h1 : (pickLoop c (cands.filter fun cd => categorize_feed cd == c) n seen).1.countP
        (fun r => primaryCatCR r == cat) = 0 := by
      rw [List.countP_eq_zero]
      intro x hx
      rw [show primaryCatCR x = c by
        rw [primaryCatCR, pickLoop_cats c _ _ _ x hx]
        rfl]
      simp [hc]
    rw [h1, ih _ hrest]

theorem selOuter_countP_le (cands : List CsvRow) (cat : String) (q : Nat) :
    ∀ (needs : List (String × Nat)) (seen : List String),
      (needs.map Prod.fst).Nodup → (cat, q) ∈ needs →
      (selOuter cands needs seen).countP (fun r => primaryCatCR r == cat) ≤ q := by
  intro needs
  induction needs with
  | nil => intro seen _ hmem; simp at hmem
  | cons cn rest ih =>
    intro seen hnd hmem
    rcases cn with ⟨c, n⟩
    have hnd1 : c ∉ rest.map Prod.fst := by
      have := List.pairwise_cons.1 hnd
      intro hc
      exact (this.1 c hc) rfl
    have hnd2 : (rest.map Prod.fst).Nodup := (List.pairwise_cons.1 hnd).2
    simp only [selOuter]
    rw [List.countP_append]
    rcases List.mem_cons.1 hmem with heq | hr
    · have hc : c = cat := (Prod.mk.injEq _ _ _ _ ▸ heq.symm).1
      have hn : n = q := (Prod.mk.injEq _ _ _ _ ▸ heq.symm).2
      have h2 : (selOuter cands rest
          (pickLoop c (cands.filter fun cd => categorize_feed cd == c) n seen).2).countP
          (fun r => primaryCatCR r == cat) = 0 :=
        selOuter_countP_zero cands cat rest _ (hc ▸ hnd1)
      have h1 : (pickLoop c (cands.filter fun cd => categorize_feed cd == c) n
          seen).1.countP (fun r => primaryCatCR r == cat) ≤ q := by
        calc (pickLoop c (cands.filter fun cd => categorize_feed cd == c) n
            seen).1.countP (fun r => primaryCatCR r == cat) ≤
            (pickLoop c (cands.filter fun cd => categorize_feed cd == c) n
              seen).1.length := List.countP_le_length _
          _ ≤ n := pickLoop_length_le c _ n seen
          _ = q := hn
      omega
    · have hc : c ≠ cat := by
        intro hcc
        exact hnd1 (hcc ▸ List.mem_map_of_mem Prod.fst hr)
      have h1 : (pickLoop c (cands.filter fun cd => categorize_feed cd == c) n
          seen).1.countP (fun r => primaryCatCR r == cat) = 0 := by
        rw [List.countP_eq_zero]
        intro x hx
        rw [show primaryCatCR x = c by
          rw [primaryCatCR, pickLoop_cats c _ _ _ x hx]
          rfl]
        simp [hc]
      rw [h1]
      have hih := ih
        ((pickLoop c (cands.filter fun cd => categorize_feed cd == c) n seen).2) hnd2 hr
      omega

/-!
C2.  The claim: in every selection pass, the number of newly accepted
candidates with primary category `c` is at most
`max(0, quota[c] - existingCounts[c])`, so 15 existing Technology entries
against a quota of 15 mean zero further Technology acceptances.  This holds
for `select_balanced_feeds`, which computes `needed = max(0, target -
current)` from the existing collection.  `PremiumScaler.process_candidates`
does not subtract existing counts: it bounds this run's acceptances by
`target_categories.get(cat, 3)` alone, so with 15 existing Technology
entries it still accepts up to 15 more.  Corrected.
-/

/-- One existing Technology record. -/
def c2TechRecord : CuratedRecord := ⟨"https://old.test/feed", "Old", ["Technology"], "en"⟩

/-- An existing collection already holding 15 Technology entries. -/
def c2Existing15 : List CuratedRecord := List.replicate 15 c2TechRecord

/-- A bozo parse result with no entries: its quality score is the literal 0. -/
def c2BozoFeed : ParsedFeed := ⟨true, "", "", "", "", false, "", "", none, []⟩

/-- A world where every probe answers 200 and every fetch parses to the bozo
feed. -/
def c2World : World := ⟨fun _ => .ok 200, fun _ => .ok c2BozoFeed, 0⟩

/-- A fresh candidate predicted as Technology. -/
def c2Cand : CsvRow :=
  ⟨"https://new.test/feed", "New", "", "0", "NULL", 0, "", 1, "Technology", 0⟩

/-- C2 counterexample: with 15 existing Technology entries and the
Technology quota 15 (`needed = max(0, 15 - 15) = 0`), the premium scaler
still accepts a Technology candidate — its per-category bound ignores the
existing collection. -/
theorem c2_counterexample :
    ¬ ((process_candidates_e100 c2World 0 c2Existing15 [c2Cand] 70).countP
        (fun fd => primaryCat fd == "Technology") ≤
      targetCategoriesE100 "Technology" - countCat "Technology" c2Existing15) := by
  decide

/-- C2 amended: `select_balanced_feeds` accepts at most
`quota[c] - existingCounts[c]` (ℕ subtraction, i.e. `max(0, …)`) candidates
of primary category `c` for every quota entry `(c, quota)`;
`PremiumScaler.process_candidates` bounds its per-category acceptances by
`quota[c]` alone, without subtracting existing counts. -/
theorem c2_selector_respects_quota :
    (∀ (cands : List CsvRow) (current : List CuratedRecord) (t : Nat)
        (cat : String) (q : Nat),
      (cat, q) ∈ quick100Distribution →
      (select_balanced_feeds cands current t).countP
        (fun r => primaryCatCR r == cat) ≤ q - countCat cat current) ∧
    (∀ (w : World) (minS : ℚ) (existing : List CuratedRecord) (cands : List CsvRow)
        (target : Nat) (cat : String),
      (process_candidates_e100 w minS existing cands target).countP
        (fun fd => primaryCat fd == cat) ≤ targetCategoriesE100 cat) := by
  constructor
  · intro cands current t cat q hmem
    unfold select_balanced_feeds
    apply selOuter_countP_le
    · have hkeys : ((quick100Distribution.map
          fun cq => (cq.1, cq.2 - countCat cq.1 current)).map Prod.fst) =
          quick100Distribution.map Prod.fst := by
        rw [List.map_map]
        rfl
      rw [hkeys]
      decide
    · exact List.mem_map_of_mem _ hmem
  · intro w minS existing cands target cat
    have h := loopE100_countP_le w minS cat cands
      (existing.map fun f => pyLower f.rss_url) target (fun _ => 0)
    unfold process_candidates_e100
    omega

/-- C2 witness: the spec's own Technology scenario — 15 existing Technology
entries against quota 15 force a zero bound for `select_balanced_feeds` —
together with the premium scaler's quota-only bound at a concrete world. -/
theorem c2_witness :
    (select_balanced_feeds [] c2Existing15 100).countP
      (fun r => primaryCatCR r == "Technology") ≤
      15 - countCat "Technology" c2Existing15 ∧
    (process_candidates_e100 c2World 0 [] [] 5).countP
      (fun fd => primaryCat fd == "Technology") ≤ targetCategoriesE100 "Technology" :=
  ⟨c2_selector_respects_quota.1 [] c2Existing15 100 "Technology" 15 (by decide),
   c2_selector_respects_quota.2 c2World 0 [] [] 5 "Technology"⟩

/-!
C9.  The claim: every selection loop accepts at most `targetTotal` new feeds
and stops exactly at `targetTotal` acceptances or exhaustion.  This holds
for both `process_candidates` loops; but `select_balanced_feeds` never reads
its `target_total` parameter — its output is bounded only by the per-category
needed counts — so a small target does not bound it.  Corrected.
-/

/-- A candidate whose title keyword-classifies as Technology. -/
def c9CandA : CsvRow := ⟨"https://a.test", "ai", "", "0", "NULL", 0, "", 1, "", 0⟩

/-- A second such candidate with a distinct URL. -/
def c9CandB : CsvRow := ⟨"https://b.test", "ai", "", "0", "NULL", 0, "", 1, "", 0⟩

/-- C9 counterexample: with `target_total = 1`, `select_balanced_feeds`
still accepts two candidates — the parameter is never read. -/
theorem c9_counterexample :
    ¬ ((select_balanced_feeds [c9CandA, c9CandB] [] 1).length ≤ 1) := by decide

/-- C9 amended: both `process_candidates` loops accept at most `target` and,
whenever fewer than `target` were accepted, raising the target further
changes nothing (the candidate list was exhausted); `select_balanced_feeds`
ignores its `target_total` argument entirely. -/
theorem c9_selection_stops_at_target :
    (∀ (w : World) (minS : ℚ) (existing : List CuratedRecord) (cands : List CsvRow)
        (target : Nat),
      (process_candidates_ef w minS existing cands target).length ≤ target) ∧
    (∀ (w : World) (minS : ℚ) (existing : List CuratedRecord) (cands : List CsvRow)
        (target k : Nat),
      (process_candidates_ef w minS existing cands target).length < target →
      process_candidates_ef w minS existing cands (target + k) =
        process_candidates_ef w minS existing cands target) ∧
    (∀ (w : World) (minS : ℚ) (existing : List CuratedRecord) (cands : List CsvRow)
        (target : Nat),
      (process_candidates_e100 w minS existing cands target).length ≤ target) ∧
    (∀ (w : World) (minS : ℚ) (existing : List CuratedRecord) (cands : List CsvRow)
        (target k : Nat),
      (process_candidates_e100 w minS existing cands target).length < target →
      process_candidates_e100 w minS existing cands (target + k) =
        process_candidates_e100 w minS existing cands target) ∧
    (∀ (cands : List CsvRow) (current : List CuratedRecord) (t₁ t₂ : Nat),
      select_balanced_feeds cands current t₁ = select_balanced_feeds cands current t₂) :=
  ⟨fun w minS existing cands target =>
     loopEF_length_le w minS cands (existing.map fun f : CuratedRecord => pyLower f.rss_url) target,
   fun w minS existing cands target k h =>
     loopEF_stab w minS cands (existing.map fun f : CuratedRecord => pyLower f.rss_url) target k h,
   fun w minS existing cands target =>
     loopE100_length_le w minS cands (existing.map fun f : CuratedRecord => pyLower f.rss_url) target _,
   fun w minS existing cands target k h =>
     loopE100_stab w minS cands (existing.map fun f : CuratedRecord => pyLower f.rss_url) target k _ h,
   fun _ _ _ _ => rfl⟩

/-- A world where every request raises. -/
def c9World : World := ⟨fun _ => .error "down", fun _ => .error "down", 0⟩

/-- C9 witness: the bounds and the stabilization applied at concrete inputs
(the stabilization hypotheses discharged by computation), plus the
target-independence of `select_balanced_feeds` at two distinct targets. -/
theorem c9_witness :
    (process_candidates_ef c9World 0 [] [] 5).length ≤ 5 ∧
    process_candidates_ef c9World 0 [] [] (5 + 3) =
      process_candidates_ef c9World 0 [] [] 5 ∧
    (process_candidates_e100 c9World 0 [] [] 5).length ≤ 5 ∧
    process_candidates_e100 c9World 0 [] [] (5 + 2) =
      process_candidates_e100 c9World 0 [] [] 5 ∧
    select_balanced_feeds [] [] 1 = select_balanced_feeds [] [] 2 :=
  ⟨c9_selection_stops_at_target.1 c9World 0 [] [] 5,
   c9_selection_stops_at_target.2.1 c9World 0 [] [] 5 3 (by decide),
   c9_selection_stops_at_target.2.2.1 c9World 0 [] [] 5,
   c9_selection_stops_at_target.2.2.2.1 c9World 0 [] [] 5 2 (by decide),
   c9_selection_stops_at_target.2.2.2.2 [] [] 1 2⟩

end Podcasts
